import Mathlib

/-!
# A verification development for the catberry-uhr HTTP client

This file gives a shallow embedding, in Lean 4, of the request-validation,
header-merging, body-encoding and response-decoding pipeline of the
catberry-uhr universal HTTP(S) request library (`lib/UHRBase.js` and
`lib/UHR.js`), together with theorems about that embedding.

JavaScript values are modelled by the inductive type `JSVal` (with `JSNum`
modelling the relevant part of JS numbers, including `NaN`); JS objects are
modelled as association lists of string keys to values, with JS property
assignment and deletion modelled by `setVal` and `removeKey`.

The external `catberry-uri` library (URI/query parsing and serialization) and
the `JSON` builtins are out of scope of the repository; they are modelled from
the specification where noted; `JSON.parse` / `JSON.stringify` are kept as
explicit function parameters of the embedded operations.
-/

set_option autoImplicit false

namespace CatberryUHR

/-- Model of the fragment of JavaScript numbers the pipeline observes:
`NaN` and integral values. (No claim in this development depends on
non-integral numeric values.) -/
inductive JSNum where
  | nan
  | int (i : Int)
deriving DecidableEq, Repr

/-- Model of JavaScript values as observed by the pipeline: `undefined`,
`null`, booleans, numbers, strings, and plain objects (association lists of
string keys, in property-insertion order, as `Object.keys` enumerates them). -/
inductive JSVal where
  | undefined
  | null
  | boolean (b : Bool)
  | number (n : JSNum)
  | str (s : String)
  | obj (props : List (String × JSVal))
deriving Repr

mutual

/-- Decidable equality for `JSVal` (hand-rolled because of the nested
occurrence of `JSVal` under `List`). -/
def JSVal.beq : JSVal → JSVal → Bool
  | .undefined, .undefined => true
  | .null, .null => true
  | .boolean a, .boolean b => a = b
  | .number a, .number b => a = b
  | .str a, .str b => a = b
  | .obj a, .obj b => JSVal.beqProps a b
  | _, _ => false

def JSVal.beqProps : List (String × JSVal) → List (String × JSVal) → Bool
  | [], [] => true
  | (k₁, v₁) :: r₁, (k₂, v₂) :: r₂ =>
      k₁ = k₂ && JSVal.beq v₁ v₂ && JSVal.beqProps r₁ r₂
  | _, _ => false

end

mutual

theorem JSVal.beq_iff : ∀ a b : JSVal, JSVal.beq a b = true ↔ a = b
  | .undefined, b => by cases b <;> simp [JSVal.beq]
  | .null, b => by cases b <;> simp [JSVal.beq]
  | .boolean x, b => by cases b <;> simp [JSVal.beq]
  | .number x, b => by cases b <;> simp [JSVal.beq]
  | .str x, b => by cases b <;> simp [JSVal.beq]
  | .obj l, b => by
      cases b <;> simp [JSVal.beq]
      exact JSVal.beqProps_iff l _

theorem JSVal.beqProps_iff : ∀ a b : List (String × JSVal),
    JSVal.beqProps a b = true ↔ a = b
  | [], b => by cases b <;> simp [JSVal.beqProps]
  | (k₁, v₁) :: r₁, b => by
      cases b with
      | nil => simp [JSVal.beqProps]
      | cons h r₂ =>
        obtain ⟨k₂, v₂⟩ := h
        simp only [JSVal.beqProps, Bool.and_eq_true, decide_eq_true_eq,
          List.cons.injEq, Prod.mk.injEq]
        rw [JSVal.beq_iff v₁ v₂, JSVal.beqProps_iff r₁ r₂]

end

instance : DecidableEq JSVal := fun a b =>
  decidable_of_iff (JSVal.beq a b = true) (JSVal.beq_iff a b)

/-- JavaScript truthiness for the modelled values: `undefined`, `null`,
`false`, `0`, `NaN` and the empty string are falsy; every object is truthy. -/
def truthy : JSVal → Bool
  | .undefined => false
  | .null => false
  | .boolean b => b
  | .number .nan => false
  | .number (.int i) => i ≠ 0
  | .str s => s ≠ ""
  | .obj _ => true

/-- The JavaScript `typeof` operator on the modelled values
(note `typeof null` is `"object"`). -/
def typeofStr : JSVal → String
  | .undefined => "undefined"
  | .null => "object"
  | .boolean _ => "boolean"
  | .number _ => "number"
  | .str _ => "string"
  | .obj _ => "object"

/-- JavaScript string coercion (`String(v)`) for the modelled values. -/
def jsToString : JSVal → String
  | .undefined => "undefined"
  | .null => "null"
  | .boolean true => "true"
  | .boolean false => "false"
  | .number .nan => "NaN"
  | .number (.int i) => toString i
  | .str s => s
  | .obj _ => "[object Object]"

/-- Property read `v[k]` on a plain object value; absent keys (and non-object
bases) read as `undefined`. -/
def getField (v : JSVal) (k : String) : JSVal :=
  match v with
  | .obj props =>
      match props.find? (fun kv => kv.1 = k) with
      | some kv => kv.2
      | none => .undefined
  | _ => .undefined

/-- JavaScript property assignment `o[k] = v` on an association-list object:
an existing key keeps its position and gets the new value; a new key is
appended (insertion order). -/
def setVal {α : Type} (l : List (String × α)) (k : String) (v : α) :
    List (String × α) :=
  if l.any (fun kv => kv.1 = k) then
    l.map (fun kv => if kv.1 = k then (k, v) else kv)
  else
    l ++ [(k, v)]

/-- JavaScript property deletion `delete o[k]` on an association-list
object. -/
def removeKey {α : Type} (l : List (String × α)) (k : String) :
    List (String × α) :=
  l.filter (fun kv => kv.1 ≠ k)

/-- Association-list lookup, used to state properties of the merged header
mappings. -/
def lookupKey {α : Type} (l : List (String × α)) (k : String) : Option α :=
  (l.find? (fun kv => kv.1 = k)).map (fun kv => kv.2)

/-! ## Percent-encoding and the query model

Modelled from the spec: the external `catberry-uri` library provides a
query-string sub-model "supporting get/set of key-value pairs and round-trip
serialization" over the RFC 3986 query component.  Serialization
percent-encodes (as UTF-8 bytes) every character outside the characters the
RFC allows literally in a query (keeping `&`, `=`, `%`, `#` encoded so that
serialization is unambiguous); in particular a space becomes `%20` while a
literal `+` stays as itself.  Parsing splits on `&` and on the first `=` of
each pair and percent-decodes; a malformed percent escape or an invalid UTF-8
byte sequence is a parse failure (the library throws). -/

/-- Upper-case hexadecimal digit for a nibble. -/
def hexDigit (n : Nat) : Char :=
  (['0', '1', '2', '3', '4', '5', '6', '7', '8', '9',
    'A', 'B', 'C', 'D', 'E', 'F'].get? n).getD '0'

/-- `%`-escape of a byte, with two upper-case hexadecimal digits. -/
def hexByte (b : Nat) : String :=
  ⟨['%', hexDigit (b / 16 % 16), hexDigit (b % 16)]⟩

/-- UTF-8 encoding of one character, as its list of byte values. -/
def utf8EncodeCharNat (c : Char) : List Nat :=
  let n := c.toNat
  if n < 0x80 then [n]
  else if n < 0x800 then [0xC0 + n / 64, 0x80 + n % 64]
  else if n < 0x10000 then
    [0xE0 + n / 4096, 0x80 + n / 64 % 64, 0x80 + n % 64]
  else
    [0xF0 + n / 262144, 0x80 + n / 4096 % 64, 0x80 + n / 64 % 64,
      0x80 + n % 64]

/-- Whether a byte value is a UTF-8 continuation byte. -/
def isCont (b : Nat) : Bool := 0x80 ≤ b ∧ b ≤ 0xBF

/-- Strict UTF-8 decoding of a list of byte values (rejecting overlong forms,
surrogates and out-of-range code points), as `decodeURIComponent` requires. -/
def utf8DecodeNat : List Nat → Option (List Char)
  | [] => some []
  | b₁ :: rest =>
    if b₁ < 0x80 then
      (utf8DecodeNat rest).map (fun cs => Char.ofNat b₁ :: cs)
    else if 0xC2 ≤ b₁ ∧ b₁ ≤ 0xDF then
      match rest with
      | b₂ :: rest₂ =>
          if isCont b₂ then
            (utf8DecodeNat rest₂).map
              (fun cs => Char.ofNat ((b₁ - 0xC0) * 64 + (b₂ - 0x80)) :: cs)
          else none
      | _ => none
    else if 0xE0 ≤ b₁ ∧ b₁ ≤ 0xEF then
      match rest with
      | b₂ :: b₃ :: rest₃ =>
          let cp := (b₁ - 0xE0) * 4096 + (b₂ - 0x80) * 64 + (b₃ - 0x80)
          if isCont b₂ ∧ isCont b₃ ∧ 0x800 ≤ cp ∧
              (cp < 0xD800 ∨ 0xDFFF < cp) then
            (utf8DecodeNat rest₃).map (fun cs => Char.ofNat cp :: cs)
          else none
      | _ => none
    else if 0xF0 ≤ b₁ ∧ b₁ ≤ 0xF4 then
      match rest with
      | b₂ :: b₃ :: b₄ :: rest₄ =>
          let cp := (b₁ - 0xF0) * 262144 + (b₂ - 0x80) * 4096 +
            (b₃ - 0x80) * 64 + (b₄ - 0x80)
          if isCont b₂ ∧ isCont b₃ ∧ isCont b₄ ∧ 0x10000 ≤ cp ∧
              cp ≤ 0x10FFFF then
            (utf8DecodeNat rest₄).map (fun cs => Char.ofNat cp :: cs)
          else none
      | _ => none
    else none

/-- Characters serialized literally in the query component: unreserved
characters and the query sub-delimiters, excluding `&`, `=` (pair structure)
and `%` (escape introducer). -/
def queryLiteralChar (c : Char) : Bool :=
  c.isAlphanum ||
    c ∈ ['-', '.', '_', '~', '!', '$', Char.ofNat 39, '(', ')', '*', '+',
      ',', ';', ':', '@', '/', '?']

/-- Percent-encoding of one character for the query component (UTF-8 bytes). -/
def pctEncodeChar (c : Char) : String :=
  if queryLiteralChar c then String.singleton c
  else String.join ((utf8EncodeCharNat c).map hexByte)

/-- Percent-encoding of a string for the query component. -/
def pctEncode (s : String) : String :=
  String.join (s.data.map pctEncodeChar)

/-- Numeric value of a hexadecimal digit (case-insensitive). -/
def hexVal (c : Char) : Option Nat :=
  if '0' ≤ c ∧ c ≤ '9' then some (c.toNat - '0'.toNat)
  else if 'a' ≤ c ∧ c ≤ 'f' then some (c.toNat - 'a'.toNat + 10)
  else if 'A' ≤ c ∧ c ≤ 'F' then some (c.toNat - 'A'.toNat + 10)
  else none

/-- Percent-decoding of a query component to raw byte values; `none` on a
malformed escape.  Literal characters contribute their UTF-8 bytes. -/
def pctDecodeBytes : List Char → Option (List Nat)
  | [] => some []
  | '%' :: h₁ :: h₂ :: rest => do
      let a ← hexVal h₁
      let b ← hexVal h₂
      let r ← pctDecodeBytes rest
      pure ((16 * a + b) :: r)
  | '%' :: _ => none
  | c :: rest => do
      let r ← pctDecodeBytes rest
      pure (utf8EncodeCharNat c ++ r)

/-- Percent-decoding of a query component to a string; `none` on a malformed
escape or an invalid UTF-8 byte sequence. -/
def pctDecode (s : String) : Option String := do
  let bytes ← pctDecodeBytes s.data
  let cs ← utf8DecodeNat bytes
  pure ⟨cs⟩

/-- `String.prototype.replace` with a *string* pattern, as used at
`UHRBase.js:339`: replaces only the **first** occurrence of the pattern. -/
def listReplaceFirst : List Char → List Char → List Char → List Char
  | [], _, _ => []
  | c :: rest, pat, rep =>
      if pat.isPrefixOf (c :: rest) then rep ++ (c :: rest).drop pat.length
      else c :: listReplaceFirst rest pat rep

/-- `s.replace(pat, rep)` with a string pattern (first occurrence only). -/
def jsReplaceFirst (s pat rep : String) : String :=
  ⟨listReplaceFirst s.data pat.data rep.data⟩

/-- Global replacement, fuel-recursive so that it reduces in the kernel; the
fuel is an upper bound on the number of characters consumed (each step
consumes at least one character for a non-empty pattern). -/
def listReplaceAllFuel (pat rep : List Char) : Nat → List Char → List Char
  | 0, s => s
  | fuel + 1, s =>
      match s with
      | [] => []
      | c :: rest =>
          if pat ≠ [] ∧ pat.isPrefixOf (c :: rest) then
            rep ++ listReplaceAllFuel pat rep fuel ((c :: rest).drop pat.length)
          else c :: listReplaceAllFuel pat rep fuel rest

/-- Global replacement (`String.prototype.replace` with a `/g` regular
expression over a literal pattern, as at UHRBase.js:265-266): every
non-overlapping occurrence of a non-empty pattern, left to right. -/
def jsReplaceAll (s pat rep : String) : String :=
  ⟨listReplaceAllFuel pat.data rep.data s.data.length s.data⟩

/-- Split on every occurrence of a separator, fuel-recursive so that it
reduces in the kernel. -/
def listSplitOnFuel (sep : List Char) : Nat → List Char → List (List Char)
  | 0, s => [s]
  | fuel + 1, s =>
      match s with
      | [] => [[]]
      | c :: rest =>
          if sep ≠ [] ∧ sep.isPrefixOf (c :: rest) then
            [] :: listSplitOnFuel sep fuel ((c :: rest).drop sep.length)
          else
            match listSplitOnFuel sep fuel rest with
            | part :: parts => (c :: part) :: parts
            | [] => [[c]]

/-- `s.split(sep)` for a non-empty string separator
(`String.prototype.split`). -/
def jsSplitOn (s sep : String) : List String :=
  (listSplitOnFuel sep.data s.data.length s.data).map String.mk

/-- ASCII lower-casing (`String.prototype.toLowerCase` on the header and
scheme strings the pipeline lower-cases). -/
def lowerStr (s : String) : String :=
  ⟨s.data.map Char.toLower⟩

/-- Parse one `key=value` pair of a query string (split at the first `=`;
a pair without `=` yields an empty value). -/
def parseQueryPair (part : String) : Option (String × String) := do
  let k := part.data.takeWhile (fun c => c ≠ '=')
  let rest := part.data.drop k.length
  let v := match rest with
           | _ :: r => r
           | [] => []
  let key ← pctDecode ⟨k⟩
  let value ← pctDecode ⟨v⟩
  pure (key, value)

/-- Parse a query string into its key-value mapping (later duplicates of a
key overwrite earlier ones, as for JS object assignment); `none` on any
malformed escape. -/
def queryParse (s : String) : Option (List (String × String)) :=
  if s = "" then some []
  else do
    let pairs ← (jsSplitOn s "&").mapM parseQueryPair
    pure (pairs.foldl (fun acc kv => setVal acc kv.1 kv.2) [])

/-- Serialize a key-value mapping as a query string (`Query.prototype.toString`
of `catberry-uri`): percent-encoded pairs joined with `&`. -/
def queryToString (values : List (String × String)) : String :=
  String.intercalate "&" (values.map (fun kv => pctEncode kv.1 ++ "=" ++ pctEncode kv.2))

/-! ## URI model

Modelled from the spec: the external `catberry-uri` library parses a URL into
scheme, authority (user-info, host, port), path, query and fragment, following
the RFC 3986 component grammar (the appendix-B split).  The query component is
parsed into the key-value sub-model above; URLs whose query has malformed
escapes are modelled with an empty mapping (no claim exercises them). -/

/-- The parsed query sub-object (`uri.query`), holding its key-value mapping;
values are JS values because the repository assigns arbitrary `data` values
into `uri.query.values`. -/
structure QueryRec where
  values : List (String × JSVal)
deriving DecidableEq, Repr

/-- The parsed authority sub-object (`uri.authority`). -/
structure AuthorityRec where
  userInfo : Option String
  host : String
  port : Option String
deriving DecidableEq, Repr

/-- The parsed URI object (`new URI(url)`). -/
structure URIRec where
  scheme : Option String
  authority : Option AuthorityRec
  path : String
  query : Option QueryRec
  fragment : Option String
deriving DecidableEq, Repr

/-- Split a character list at the first occurrence of any delimiter. -/
def takeUntil (delims : List Char) (cs : List Char) : List Char × List Char :=
  let pre := cs.takeWhile (fun c => ¬ delims.contains c)
  (pre, cs.drop pre.length)

/-- Parse the authority component `[userinfo@]host[:port]`. -/
def parseAuthority (a : List Char) : AuthorityRec :=
  let (userInfo, hostPort) :=
    if a.contains '@' then
      let pre := a.takeWhile (fun c => c ≠ '@')
      (some (String.mk pre), a.drop (pre.length + 1))
    else (none, a)
  let (host, port) :=
    if hostPort.contains ':' then
      let pre := hostPort.takeWhile (fun c => c ≠ ':')
      (String.mk pre, some (String.mk (hostPort.drop (pre.length + 1))))
    else (String.mk hostPort, none)
  ⟨userInfo, host, port⟩

/-- Parse a query component string into a `QueryRec` (parsed values are
strings; a malformed component is modelled as an empty mapping). -/
def queryRecOfString (q : String) : QueryRec :=
  ⟨((queryParse q).getD []).map (fun kv => (kv.1, JSVal.str kv.2))⟩

/-- `new URI(url)`: the RFC 3986 appendix-B component split.  A scheme is a
non-empty run of characters other than `:/?#` terminated by `:` at the very
start; `//` introduces the authority; `?` the query; `#` the fragment. -/
def parseURI (url : String) : URIRec :=
  let cs := url.data
  let (scheme, rest) :=
    let pre := cs.takeWhile (fun c => ¬ [':', '/', '?', '#'].contains c)
    match cs.drop pre.length with
    | ':' :: r => if pre.isEmpty then (none, cs) else (some (String.mk pre), r)
    | _ => (none, cs)
  let (authority, rest₂) :=
    match rest with
    | '/' :: '/' :: r =>
        let (a, r₂) := takeUntil ['/', '?', '#'] r
        (some (parseAuthority a), r₂)
    | _ => (none, rest)
  let (path, rest₃) := takeUntil ['?', '#'] rest₂
  let (query, rest₄) :=
    match rest₃ with
    | '?' :: r =>
        let (q, r₂) := takeUntil ['#'] r
        (some (queryRecOfString (String.mk q)), r₂)
    | _ => (none, rest₃)
  let fragment :=
    match rest₄ with
    | '#' :: r => some (String.mk r)
    | _ => none
  ⟨scheme, authority, String.mk path, query, fragment⟩

/-! ## UHRBase constants (`lib/UHRBase.js`) -/

/-- `DEFAULT_TIMEOUT` (UHRBase.js:7). -/
def DEFAULT_TIMEOUT : Int := 30000

/-- The nine enumerated own keys of the `METHODS` object literal
(UHRBase.js:14-26). -/
def METHODS : List String :=
  ["GET", "HEAD", "POST", "PUT", "PATCH", "DELETE", "OPTIONS", "TRACE",
    "CONNECT"]

/-- The property keys of `Object.prototype`, which the JS `in` operator also
finds on the `METHODS` object literal (prototype-chain lookup). -/
def objectPrototypeKeys : List String :=
  ["constructor", "hasOwnProperty", "isPrototypeOf", "propertyIsEnumerable",
    "toLocaleString", "toString", "valueOf", "__defineGetter__",
    "__defineSetter__", "__lookupGetter__", "__lookupSetter__", "__proto__"]

/-- The test `validated.method in UHRBase.METHODS` (UHRBase.js:193): the JS
`in` operator sees both the nine own keys and every `Object.prototype`
property key inherited by the object literal. -/
def methodInMETHODS (m : String) : Bool :=
  METHODS.contains m || objectPrototypeKeys.contains m

/-- `TYPES.URL_ENCODED` (UHRBase.js:30). -/
def TYPES_URL_ENCODED : String := "application/x-www-form-urlencoded"

/-- `TYPES.JSON` (UHRBase.js:31). -/
def TYPES_JSON : String := "application/json"

/-- `TYPES.PLAIN_TEXT` (UHRBase.js:32). -/
def TYPES_PLAIN_TEXT : String := "text/plain"

/-- `DEFAULT_GENERAL_HEADERS` (UHRBase.js:41-46). -/
def DEFAULT_GENERAL_HEADERS : List (String × JSVal) :=
  [("Accept",
    .str "application/json; q=0.7, text/html; q=0.2, text/plain; q=0.1"),
   ("Accept-Charset", .str "UTF-8; q=1")]

/-- `URL_ENCODED_ENTITY_CONTENT_TYPE` (UHRBase.js:52-54). -/
def URL_ENCODED_ENTITY_CONTENT_TYPE : String :=
  "application/x-www-form-urlencoded; charset=UTF-8"

/-- `PLAIN_TEXT_ENTITY_CONTENT_TYPE` (UHRBase.js:60-62). -/
def PLAIN_TEXT_ENTITY_CONTENT_TYPE : String := "text/plain; charset=UTF-8"

/-! ## UHRBase operations -/

/-- `_findContentType(headers)` (UHRBase.js:388-407): scan all header keys,
remembering the last key equal to `content-type` case-insensitively and its
value; return that key (default `Content-Type`) and the value's type token
(text before the first `;`, lower-cased; empty value gives an empty token). -/
def findContentType (headers : List (String × JSVal)) : String × String :=
  let found := headers.foldl
    (fun acc kv =>
      if lowerStr kv.1 = "content-type" then (kv.1, jsToString kv.2) else acc)
    ("Content-Type", "")
  (found.1, lowerStr ((jsSplitOn found.2 ";").headD ""))

/-- `createHeaders(parameterHeaders)` (UHRBase.js:275-298): start from a copy
of the default general headers; for each caller entry in order, a `null` or
`undefined` value deletes that exact key, any other value is assigned under
that exact key.  A non-object (or falsy) argument is treated as `{}`. -/
def hdrStep (hs : List (String × JSVal)) (kv : String × JSVal) :
    List (String × JSVal) :=
  if kv.2 = .null ∨ kv.2 = .undefined then removeKey hs kv.1
  else setVal hs kv.1 kv.2

/-- The loop body of the caller-header overlay (UHRBase.js:287-295) is
`hdrStep`; `createHeaders` folds it over the caller entries starting from the
copied defaults. -/
def createHeaders (parameterHeaders : JSVal) : List (String × JSVal) :=
  let ph : List (String × JSVal) :=
    match parameterHeaders with
    | .obj l => l
    | _ => []
  ph.foldl hdrStep DEFAULT_GENERAL_HEADERS

/-- `_isUpstreamRequest(method)` (UHRBase.js:355-361). -/
def isUpstreamRequest (method : String) : Bool :=
  method = "POST" || method = "PUT" || method = "PATCH"

/-- `_getDataToSend(headers, data)` (UHRBase.js:233-268), parameterized by the
external `JSON.stringify` builtin.  Non-object (or falsy) data is sent as its
string form with a plain-text content type defaulted in; object data is JSON
serialized when the content type resolves to `application/json`, and otherwise
form-url-encoded with the content type forced and with the mandatory
post-processing `replace(/\+/g, '%2B').replace(/%20/g, '+')` (both global). -/
def getDataToSend (stringify : JSVal → String)
    (headers : List (String × JSVal)) (data : JSVal) :
    List (String × JSVal) × JSVal :=
  let found := findContentType headers
  let contentTypeHeader := found.1
  let contentType := found.2
  if ¬ (truthy data = true ∧ typeofStr data = "object") then
    let dataStr := if truthy data then jsToString data else ""
    let headers' :=
      if contentType = "" then
        setVal headers contentTypeHeader (.str PLAIN_TEXT_ENTITY_CONTENT_TYPE)
      else headers
    (headers', .str dataStr)
  else if contentType = TYPES_JSON then
    (headers, .str (stringify data))
  else
    let headers' :=
      setVal headers contentTypeHeader (.str URL_ENCODED_ENTITY_CONTENT_TYPE)
    let props := match data with
                 | .obj l => l
                 | _ => []
    let body :=
      jsReplaceAll
        (jsReplaceAll (queryToString (props.map (fun kv => (kv.1, jsToString kv.2))))
          "+" "%2B")
        "%20" "+"
    (headers', .str body)

/-- `convertResponse(headers, responseData)` (UHRBase.js:323-347),
parameterized by the external `JSON.parse` builtin (`none` models a thrown
parse error).  A non-string body is coerced to the empty string; the content
type defaults to `text/plain`; the JSON branch is `JSON.parse(s) || {}` with a
thrown error caught into `{}`; the URL-encoded branch first replaces the
*first* `+` with `%20` (string-pattern `replace`, UHRBase.js:339), parses the
query, and catches a thrown parse error into `{}`; every other content type
returns the body unchanged. -/
def convertResponse (jsonParse : String → Option JSVal)
    (headers : List (String × JSVal)) (responseData : JSVal) : JSVal :=
  let s := match responseData with
           | .str s => s
           | _ => ""
  let found := findContentType headers
  let contentType := if found.2 = "" then TYPES_PLAIN_TEXT else found.2
  if contentType = TYPES_JSON then
    match jsonParse s with
    | some v => if truthy v then v else .obj []
    | none => .obj []
  else if contentType = TYPES_URL_ENCODED then
    match queryParse (jsReplaceFirst s "+" "%20") with
    | some l => .obj (l.map (fun kv => (kv.1, JSVal.str kv.2)))
    | none => .obj []
  else .str s

/-! ## Request validation (`_validateRequest`, UHRBase.js:171-224) -/

/-- The seven distinct validation failures of `_validateRequest`, in source
order. -/
inductive VErr where
  | paramsNotObject
  | urlRequired
  | noProtocol
  | unsupportedScheme (s : String)
  | noHost
  | methodRequired
  | timeoutNotNumber
deriving DecidableEq, Repr

/-- The error message carried by each validation failure (UHRBase.js:173,
179, 184, 187, 190, 194, 199). -/
def errMessage : VErr → String
  | .paramsNotObject => "Request parameters argument should be an object"
  | .urlRequired => "\"parameters.url\" is a required parameter"
  | .noProtocol => "\"parameters.url\" should contain a protocol (scheme)"
  | .unsupportedScheme s => "\"" ++ s ++ "\" protocol (scheme) is unsupported"
  | .noHost => "\"parameters.url\" should contain a host"
  | .methodRequired => "HTTP method is a required parameter"
  | .timeoutNotNumber => "Timeout should be a number"

/-- The validated parameters produced by a successful `_validateRequest`:
the fields the transports consume. -/
structure Validated where
  method : String
  uri : URIRec
  timeout : JSVal
  headers : List (String × JSVal)
  data : JSVal
deriving DecidableEq, Repr

/-- Merge of a data mapping into `uri.query.values` (UHRBase.js:207-215):
when the mapping is non-empty and there is no query yet, an empty query is
created first; then each key is assigned in order (existing keys keep their
position and are overwritten, new keys are appended). -/
def mergeURIQuery (u : URIRec) (props : List (String × JSVal)) : URIRec :=
  let q₀ := if props.length > 0 ∧ u.query = none then some (⟨[]⟩ : QueryRec)
            else u.query
  match q₀ with
  | some q =>
      let merged : QueryRec := ⟨props.foldl (fun vs kv => setVal vs kv.1 kv.2) q.values⟩
      { u with query := some merged }
  | none => u

/-- The key-value mapping of a URI's query component (empty when the URI has
no query), used to state the downstream merge property. -/
def queryValues (u : URIRec) : List (String × JSVal) :=
  match u.query with
  | some q => q.values
  | none => []

/-- `_validateRequest(parameters)` (UHRBase.js:171-224), parameterized by the
external `JSON.stringify` builtin used by `_getDataToSend`.  The checks run in
source order: parameters object, url a string, scheme present, scheme
http/https (case-insensitive), host present, method a string contained in
`METHODS` by the `in` operator, then `timeout` defaulted when falsy and
type-checked; finally headers are merged and, depending on the method, data is
folded into the query (downstream) or encoded into a body (upstream). -/
def validateRequest (stringify : JSVal → String) (parameters : JSVal) :
    Except VErr Validated :=
  if ¬ (truthy parameters = true ∧ typeofStr parameters = "object") then
    .error .paramsNotObject
  else
    match getField parameters "url" with
    | .str url =>
      let uri := parseURI url
      match uri.scheme with
      | none => .error .noProtocol
      | some scheme =>
        if ¬ (lowerStr scheme = "http" ∨ lowerStr scheme = "https") then
          .error (.unsupportedScheme scheme)
        else
          match uri.authority with
          | none => .error .noHost
          | some auth =>
            if auth.host = "" then .error .noHost
            else
              match getField parameters "method" with
              | .str m =>
                if ¬ methodInMETHODS m then .error .methodRequired
                else
                  let t₀ := getField parameters "timeout"
                  let t := if truthy t₀ then t₀
                           else .number (.int DEFAULT_TIMEOUT)
                  if typeofStr t ≠ "number" then .error .timeoutNotNumber
                  else
                    let hs := createHeaders (getField parameters "headers")
                    match getField parameters "data" with
                    | .obj props =>
                      if isUpstreamRequest m then
                        let dh := getDataToSend stringify hs (.obj props)
                        .ok ⟨m, uri, t, dh.1, dh.2⟩
                      else
                        .ok ⟨m, mergeURIQuery uri props, t, hs, .null⟩
                    | d =>
                      let dh := getDataToSend stringify hs d
                      .ok ⟨m, uri, t, dh.1, dh.2⟩
              | _ => .error .methodRequired
    | _ => .error .urlRequired

deriving instance DecidableEq for Except

/-- Whether a validation result is a success. -/
def isOk {ε α : Type} : Except ε α → Bool
  | .ok _ => true
  | .error _ => false

/-! ## Server transport (`lib/UHR.js`) -/

/-- The body written on the wire by the server transport (UHR.js:72-74):
`request.write(parameters.data)` happens only for upstream methods; downstream
requests write no body. -/
def serverWireBody (v : Validated) : Option JSVal :=
  if isUpstreamRequest v.method then some v.data else none

/-- The `rejectUnauthorized` field of the server transport's request options
(UHR.js:51-52): `('unsafeHTTPS' in parameters) ? !parameters.unsafeHTTPS :
true`. -/
def requestOptionsRejectUnauthorized (parameters : JSVal) : Bool :=
  match parameters with
  | .obj props =>
      match props.find? (fun kv => kv.1 = "unsafeHTTPS") with
      | some kv => ! truthy kv.2
      | none => true
  | _ => true

/-! ## Association-list lemmas -/

theorem lookupKey_cons {α : Type} (hd : String × α) (tl : List (String × α))
    (k : String) :
    lookupKey (hd :: tl) k = if hd.1 = k then some hd.2 else lookupKey tl k := by
  by_cases h : hd.1 = k <;> simp [lookupKey, List.find?_cons, h]

theorem lookupKey_map_setEntry_ne {α : Type} (l : List (String × α))
    (k k₂ : String) (v : α) (h : k₂ ≠ k) :
    lookupKey (l.map (fun kv => if kv.1 = k then (k, v) else kv)) k₂ =
      lookupKey l k₂ := by
  induction l with
  | nil => rfl
  | cons hd tl ih =>
      rcases hd with ⟨k₁, v₁⟩
      simp only [List.map_cons, lookupKey_cons]
      by_cases hh : k₁ = k
      · simp [hh, Ne.symm h, ih]
      · by_cases h₂ : k₁ = k₂ <;> simp [hh, h₂, h, ih]

theorem lookupKey_map_setEntry_self {α : Type} (l : List (String × α))
    (k : String) (v : α) (h : l.any (fun kv => kv.1 = k) = true) :
    lookupKey (l.map (fun kv => if kv.1 = k then (k, v) else kv)) k = some v := by
  induction l with
  | nil => simp at h
  | cons hd tl ih =>
      rcases hd with ⟨k₁, v₁⟩
      simp only [List.map_cons, lookupKey_cons]
      by_cases hh : k₁ = k
      · simp [hh]
      · rw [List.any_cons] at h
        have h' : tl.any (fun kv => kv.1 = k) = true := by
          rcases Bool.or_eq_true_iff.mp h with h₁ | h₁
          · exact absurd (of_decide_eq_true h₁) hh
          · exact h₁
        simp [hh, ih h']

theorem lookupKey_eq_none_of_not_any {α : Type} (l : List (String × α))
    (k : String) (h : l.any (fun kv => kv.1 = k) = false) :
    lookupKey l k = none := by
  induction l with
  | nil => rfl
  | cons hd tl ih =>
      simp only [List.any_cons, Bool.or_eq_false_iff,
        decide_eq_false_iff_not] at h
      rw [lookupKey_cons, if_neg h.1]
      exact ih h.2

theorem lookupKey_append {α : Type} (l₁ l₂ : List (String × α)) (k : String) :
    lookupKey (l₁ ++ l₂) k =
      match lookupKey l₁ k with
      | some v => some v
      | none => lookupKey l₂ k := by
  induction l₁ with
  | nil => rfl
  | cons hd tl ih =>
      rw [List.cons_append, lookupKey_cons, lookupKey_cons]
      by_cases hh : hd.1 = k <;> simp [hh, ih]

theorem lookupKey_setVal {α : Type} (l : List (String × α)) (k k₂ : String)
    (v : α) :
    lookupKey (setVal l k v) k₂ = if k₂ = k then some v else lookupKey l k₂ := by
  unfold setVal
  by_cases ha : l.any (fun kv => kv.1 = k) = true
  · rw [if_pos ha]
    by_cases h : k₂ = k
    · subst h
      rw [if_pos rfl]
      exact lookupKey_map_setEntry_self l k₂ v ha
    · rw [if_neg h]
      exact lookupKey_map_setEntry_ne l k k₂ v h
  · have ha' : l.any (fun kv => kv.1 = k) = false :=
      Bool.eq_false_iff.mpr ha
    rw [if_neg ha, lookupKey_append]
    by_cases h : k₂ = k
    · subst h
      rw [lookupKey_eq_none_of_not_any l k₂ ha']
      simp [lookupKey_cons]
    · rw [if_neg h]
      have hone : lookupKey [(k, v)] k₂ = none := by
        simp [lookupKey_cons, Ne.symm h, lookupKey]
      cases hl : lookupKey l k₂ <;> simp [hl, hone]

theorem lookupKey_removeKey {α : Type} (l : List (String × α)) (k k₂ : String) :
    lookupKey (removeKey l k) k₂ = if k₂ = k then none else lookupKey l k₂ := by
  unfold removeKey
  induction l with
  | nil => by_cases h : k₂ = k <;> simp [lookupKey, h]
  | cons hd tl ih =>
      rcases hd with ⟨k₁, v₁⟩
      rw [List.filter_cons]
      by_cases hh : k₁ = k
      · rw [if_neg (by simp [hh]), ih]
        by_cases h : k₂ = k
        · simp [h]
        · simp [h, lookupKey_cons,
            show k₁ ≠ k₂ from by rw [hh]; exact Ne.symm h]
      · rw [if_pos (by simp [hh])]
        simp only [lookupKey_cons]
        rw [ih]
        by_cases h₂ : k₁ = k₂
        · have hk : ¬ k₂ = k := fun hc => hh (h₂.trans hc)
          simp [h₂, hk]
        · by_cases h : k₂ = k <;> simp [h, h₂, hh]

theorem lookupKey_hdrStep_ne (hs : List (String × JSVal)) (kv : String × JSVal)
    (k : String) (h : k ≠ kv.1) :
    lookupKey (hdrStep hs kv) k = lookupKey hs k := by
  unfold hdrStep
  by_cases hn : kv.2 = JSVal.null ∨ kv.2 = JSVal.undefined
  · rw [if_pos hn, lookupKey_removeKey, if_neg h]
  · rw [if_neg hn, lookupKey_setVal, if_neg h]

theorem lookupKey_hdrStep_self (hs : List (String × JSVal))
    (kv : String × JSVal) :
    lookupKey (hdrStep hs kv) kv.1 =
      if kv.2 = JSVal.null ∨ kv.2 = JSVal.undefined then none else some kv.2 := by
  unfold hdrStep
  by_cases hn : kv.2 = JSVal.null ∨ kv.2 = JSVal.undefined
  · rw [if_pos hn, lookupKey_removeKey, if_pos rfl, if_pos hn]
  · rw [if_neg hn, lookupKey_setVal, if_pos rfl, if_neg hn]

theorem lookupKey_foldl_hdrStep_not_mem (ph : List (String × JSVal))
    (acc : List (String × JSVal)) (k : String) (h : k ∉ ph.map Prod.fst) :
    lookupKey (ph.foldl hdrStep acc) k = lookupKey acc k := by
  induction ph generalizing acc with
  | nil => rfl
  | cons hd tl ih =>
      simp only [List.map_cons, List.mem_cons, not_or] at h
      rw [List.foldl_cons, ih _ h.2, lookupKey_hdrStep_ne _ _ _ h.1]

theorem lookupKey_foldl_hdrStep_mem (ph : List (String × JSVal))
    (acc : List (String × JSVal)) (k : String) (v : JSVal)
    (hnd : (ph.map Prod.fst).Nodup) (hm : (k, v) ∈ ph) :
    lookupKey (ph.foldl hdrStep acc) k =
      if v = JSVal.null ∨ v = JSVal.undefined then none else some v := by
  induction ph generalizing acc with
  | nil => simp at hm
  | cons hd tl ih =>
      simp only [List.map_cons, List.nodup_cons] at hnd
      rw [List.foldl_cons]
      rcases List.mem_cons.mp hm with heq | htl
      · subst heq
        rw [lookupKey_foldl_hdrStep_not_mem _ _ _ hnd.1]
        exact lookupKey_hdrStep_self acc (k, v)
      · exact ih _ hnd.2 htl

theorem lookupKey_foldl_setVal_not_mem (props : List (String × JSVal))
    (acc : List (String × JSVal)) (k : String) (h : k ∉ props.map Prod.fst) :
    lookupKey (props.foldl (fun vs kv => setVal vs kv.1 kv.2) acc) k =
      lookupKey acc k := by
  induction props generalizing acc with
  | nil => rfl
  | cons hd tl ih =>
      simp only [List.map_cons, List.mem_cons, not_or] at h
      rw [List.foldl_cons, ih _ h.2, lookupKey_setVal, if_neg h.1]

theorem lookupKey_foldl_setVal_mem (props : List (String × JSVal))
    (acc : List (String × JSVal)) (k : String) (v : JSVal)
    (hnd : (props.map Prod.fst).Nodup) (hm : (k, v) ∈ props) :
    lookupKey (props.foldl (fun vs kv => setVal vs kv.1 kv.2) acc) k =
      some v := by
  induction props generalizing acc with
  | nil => simp at hm
  | cons hd tl ih =>
      simp only [List.map_cons, List.nodup_cons] at hnd
      rw [List.foldl_cons]
      rcases List.mem_cons.mp hm with heq | htl
      · subst heq
        rw [lookupKey_foldl_setVal_not_mem _ _ _ hnd.1, lookupKey_setVal,
          if_pos rfl]
      · exact ih _ hnd.2 htl

/-! ## Claim theorems -/

/-- C1: encoding a key-value mapping as a URL-encoded request body (the
default branch of `_getDataToSend`, including the mandatory `+`→`%2B` then
`%20`→`+` post-processing) and decoding that same text with `convertResponse`
under `application/x-www-form-urlencoded` does NOT reproduce the original
mapping when a value holds two spaces: the decoder's string-pattern
`replace('+', '%20')` (UHRBase.js:339) rewrites only the first `+`, so
`{test: "a b c"}` encodes to `test=a+b+c` but decodes to `{test: "a b+c"}`. -/
theorem urlEncoded_roundTrip_fails_on_two_spaces :
    (getDataToSend (fun _ => "") [] (.obj [("test", .str "a b c")])).2 =
      .str "test=a+b+c" ∧
    convertResponse (fun _ => none)
        [("Content-Type", .str "application/x-www-form-urlencoded")]
        (.str "test=a+b+c") = .obj [("test", .str "a b+c")] ∧
    JSVal.obj [("test", JSVal.str "a b+c")] ≠
      JSVal.obj [("test", JSVal.str "a b c")] :=
  ⟨by decide, by decide, by decide⟩

/-- C4: the method check `validated.method in UHRBase.METHODS`
(UHRBase.js:192-195) uses the JS `in` operator, which also finds the
`Object.prototype` property keys inherited by the `METHODS` object literal:
the non-method strings `toString` and `constructor` pass validation, while a
string such as `wrong` outside both sets is rejected with the method error. -/
theorem validateRequest_accepts_objectPrototype_method_names :
    isOk (validateRequest (fun _ => "")
        (.obj [("url", .str "http://localhost:80/page"),
               ("method", .str "toString")])) = true ∧
    isOk (validateRequest (fun _ => "")
        (.obj [("url", .str "http://localhost:80/page"),
               ("method", .str "constructor")])) = true ∧
    validateRequest (fun _ => "")
        (.obj [("url", .str "http://localhost:80/page"),
               ("method", .str "wrong")]) = .error .methodRequired :=
  ⟨by decide, by decide, by decide⟩

/-- C8: the server transport's request options enable certificate validation
(`rejectUnauthorized`) whenever `unsafeHTTPS` is absent from the parameters or
explicitly `false`; it is disabled exactly when the caller sets `unsafeHTTPS`
to `true` (UHR.js:51-52). -/
theorem rejectUnauthorized_fail_closed (props : List (String × JSVal)) :
    (props.find? (fun kv => kv.1 = "unsafeHTTPS") = none →
      requestOptionsRejectUnauthorized (.obj props) = true) ∧
    (props.find? (fun kv => kv.1 = "unsafeHTTPS") =
        some ("unsafeHTTPS", .boolean false) →
      requestOptionsRejectUnauthorized (.obj props) = true) ∧
    (props.find? (fun kv => kv.1 = "unsafeHTTPS") =
        some ("unsafeHTTPS", .boolean true) →
      requestOptionsRejectUnauthorized (.obj props) = false) := by
  exact ⟨fun h => by simp [requestOptionsRejectUnauthorized, h],
         fun h => by simp [requestOptionsRejectUnauthorized, h, truthy],
         fun h => by simp [requestOptionsRejectUnauthorized, h, truthy]⟩

/-- C8 witness: concrete parameter objects for each case of the fail-closed
certificate-validation theorem. -/
theorem rejectUnauthorized_fail_closed_witness :
    requestOptionsRejectUnauthorized
        (.obj [("url", .str "https://localhost/page")]) = true ∧
    requestOptionsRejectUnauthorized
        (.obj [("unsafeHTTPS", .boolean false)]) = true ∧
    requestOptionsRejectUnauthorized
        (.obj [("unsafeHTTPS", .boolean true)]) = false :=
  ⟨(rejectUnauthorized_fail_closed _).1 (by decide),
   (rejectUnauthorized_fail_closed _).2.1 (by decide),
   (rejectUnauthorized_fail_closed _).2.2 (by decide)⟩

/-- C6: `convertResponse` is total and swallows decode failures: under an
`application/json` content type a failed parse (thrown error) or a `null`
parse result yields the empty mapping; under
`application/x-www-form-urlencoded` a failed query parse yields the empty
mapping; under any other (or absent, hence `text/plain`-defaulted) content
type the body string is returned unchanged. -/
theorem convertResponse_decode_errors_swallowed
    (jsonParse : String → Option JSVal) (headers : List (String × JSVal))
    (s : String) :
    ((findContentType headers).2 = "application/json" →
      (jsonParse s = none ∨ jsonParse s = some .null) →
      convertResponse jsonParse headers (.str s) = .obj []) ∧
    ((findContentType headers).2 = "application/x-www-form-urlencoded" →
      queryParse (jsReplaceFirst s "+" "%20") = none →
      convertResponse jsonParse headers (.str s) = .obj []) ∧
    ((findContentType headers).2 ≠ "application/json" →
      (findContentType headers).2 ≠ "application/x-www-form-urlencoded" →
      convertResponse jsonParse headers (.str s) = .str s) := by
  refine ⟨fun hct hp => ?_, fun hct hq => ?_, fun h₁ h₂ => ?_⟩
  · simp only [convertResponse, hct, TYPES_JSON, TYPES_PLAIN_TEXT]
    rcases hp with hp | hp <;> simp [hp, truthy]
  · simp only [convertResponse, hct, TYPES_JSON, TYPES_URL_ENCODED,
      TYPES_PLAIN_TEXT]
    simp [hq]
  · by_cases h₀ : (findContentType headers).2 = ""
    · simp [convertResponse, h₀, TYPES_JSON, TYPES_URL_ENCODED,
        TYPES_PLAIN_TEXT]
    · simp [convertResponse, h₀, h₁, h₂, TYPES_JSON, TYPES_URL_ENCODED,
        TYPES_PLAIN_TEXT]

/-- C6 witness: concrete instances of the three decode cases — malformed JSON
under `application/json`, a malformed percent escape under
`application/x-www-form-urlencoded`, and a plain body with no content type. -/
theorem convertResponse_decode_errors_swallowed_witness :
    convertResponse (fun _ => none)
        [("Content-Type", .str "application/json")] (.str "not json") =
      .obj [] ∧
    convertResponse (fun _ => none)
        [("Content-Type", .str "application/x-www-form-urlencoded")]
        (.str "a=%G") = .obj [] ∧
    convertResponse (fun _ => none) [] (.str "hello") = .str "hello" :=
  ⟨(convertResponse_decode_errors_swallowed _ _ _).1 (by decide)
      (Or.inl rfl),
   (convertResponse_decode_errors_swallowed _ _ _).2.1 (by decide) (by decide),
   (convertResponse_decode_errors_swallowed _ _ _).2.2 (by decide)
      (by decide)⟩

/-- C2 counterexample: a caller headers mapping that sets the lower-case name
`accept-charset` to `null` does NOT remove the default `Accept-Charset`
header — `createHeaders` deletes by exact key only (UHRBase.js:289-292), so
the default survives, contradicting case-insensitive removal. -/
theorem createHeaders_lowercase_null_leaves_default :
    createHeaders (.obj [("accept-charset", JSVal.null)]) =
      DEFAULT_GENERAL_HEADERS ∧
    lookupKey (createHeaders (.obj [("accept-charset", JSVal.null)]))
        "Accept-Charset" = some (.str "UTF-8; q=1") :=
  ⟨by decide, by decide⟩

/-- C2 (amended): `createHeaders` starts from the default header set and
overlays caller entries by EXACT (case-sensitive) key: a caller value of
`null`/`undefined` removes the header under that exact key; any other caller
value is stored under that exact key; a default header whose exact key is not
among the caller keys is kept — even when a caller key matches it
case-insensitively. -/
theorem createHeaders_exact_key_overlay (ph : List (String × JSVal))
    (hnd : (ph.map Prod.fst).Nodup) :
    (∀ k v, (k, v) ∈ ph → (v = .null ∨ v = .undefined) →
      lookupKey (createHeaders (.obj ph)) k = none) ∧
    (∀ k v, (k, v) ∈ ph → ¬ (v = .null ∨ v = .undefined) →
      lookupKey (createHeaders (.obj ph)) k = some v) ∧
    (∀ dk dv, (dk, dv) ∈ DEFAULT_GENERAL_HEADERS → dk ∉ ph.map Prod.fst →
      lookupKey (createHeaders (.obj ph)) dk = some dv) := by
  have hch : createHeaders (.obj ph) = ph.foldl hdrStep DEFAULT_GENERAL_HEADERS :=
    rfl
  refine ⟨?_, ?_, ?_⟩
  · intro k v hm hv
    rw [hch, lookupKey_foldl_hdrStep_mem ph _ k v hnd hm, if_pos hv]
  · intro k v hm hv
    rw [hch, lookupKey_foldl_hdrStep_mem ph _ k v hnd hm, if_neg hv]
  · intro dk dv hd hnm
    rw [hch, lookupKey_foldl_hdrStep_not_mem ph _ dk hnm]
    simp only [DEFAULT_GENERAL_HEADERS, List.mem_cons, List.mem_singleton,
      List.not_mem_nil, or_false] at hd
    rcases hd with ⟨rfl, rfl⟩ | ⟨rfl, rfl⟩ <;> decide

/-- C2 witness: a caller mapping that nulls `Accept-Charset` under its exact
key (removed), sets a custom header (stored), and leaves `Accept` untouched
(default kept). -/
theorem createHeaders_exact_key_overlay_witness :
    lookupKey (createHeaders (.obj [("Accept-Charset", JSVal.null),
        ("X-Custom", .str "v")])) "Accept-Charset" = none ∧
    lookupKey (createHeaders (.obj [("Accept-Charset", JSVal.null),
        ("X-Custom", .str "v")])) "X-Custom" = some (.str "v") ∧
    lookupKey (createHeaders (.obj [("Accept-Charset", JSVal.null),
        ("X-Custom", .str "v")])) "Accept" =
      some (.str "application/json; q=0.7, text/html; q=0.2, text/plain; q=0.1") :=
  ⟨(createHeaders_exact_key_overlay _ (by decide)).1 "Accept-Charset"
      JSVal.null (by decide) (Or.inl rfl),
   (createHeaders_exact_key_overlay _ (by decide)).2.1 "X-Custom"
      (.str "v") (by decide) (by decide),
   (createHeaders_exact_key_overlay _ (by decide)).2.2 "Accept" _ (by decide)
      (by decide)⟩

/-- C3 counterexample: a `null` timeout (a non-numeric value) does NOT reject
with the timeout error: `validated.timeout = validated.timeout ||
DEFAULT_TIMEOUT` (UHRBase.js:197) replaces every falsy timeout with the
default before the type check, so validation succeeds. -/
theorem validateRequest_null_timeout_not_rejected :
    isOk (validateRequest (fun _ => "")
        (.obj [("url", .str "http://localhost:80/page"),
               ("method", .str "GET"), ("timeout", JSVal.null)])) = true ∧
    validateRequest (fun _ => "")
        (.obj [("url", .str "http://localhost:80/page"),
               ("method", .str "GET"), ("timeout", JSVal.null)]) ≠
      .error .timeoutNotNumber :=
  ⟨by decide, by decide⟩

/-- C3 (amended): with a valid URL and method, `request` rejects with the
`Timeout should be a number` error exactly for a supplied timeout that is
TRUTHY and not of number type; falsy non-numeric timeouts (`null`, `false`,
the empty string) are silently replaced by the default 30000 instead. -/
theorem validateRequest_truthy_nonNumber_timeout_rejects
    (stringify : JSVal → String) (p : JSVal) (url scheme m : String)
    (auth : AuthorityRec)
    (hp : truthy p = true) (hto : typeofStr p = "object")
    (hurl : getField p "url" = .str url)
    (hs : (parseURI url).scheme = some scheme)
    (hhttp : lowerStr scheme = "http" ∨ lowerStr scheme = "https")
    (ha : (parseURI url).authority = some auth) (hhost : auth.host ≠ "")
    (hm : getField p "method" = .str m)
    (hmm : methodInMETHODS m = true)
    (ht : truthy (getField p "timeout") = true)
    (htn : typeofStr (getField p "timeout") ≠ "number") :
    validateRequest stringify p = .error .timeoutNotNumber := by
  unfold validateRequest
  rw [if_neg (by simp [hp, hto])]
  simp only [hurl, hs, ha, hm, hmm, ht]
  rw [if_neg (not_not_intro hhttp), if_neg hhost]
  simp only [not_true, if_false, if_true, ite_true, ite_false]
  rw [if_pos htn]

/-- C3 witness: the amended timeout rejection at the repository's own test
input (`timeout: "wrong"`). -/
theorem validateRequest_truthy_nonNumber_timeout_rejects_witness :
    validateRequest (fun _ => "")
        (.obj [("url", .str "http://localhost:80/page"),
               ("method", .str "GET"), ("timeout", .str "wrong")]) =
      .error .timeoutNotNumber :=
  validateRequest_truthy_nonNumber_timeout_rejects (fun _ => "") _
    "http://localhost:80/page" "http" "GET" ⟨none, "localhost", some "80"⟩
    (by decide) (by decide) (by decide) (by decide) (Or.inl (by decide))
    (by decide) (by decide) (by decide) (by decide) (by decide) (by decide)

/-- C10: a falsy caller timeout (`0`, the empty string, `false`, `null`,
`NaN`) is replaced by the default 30000 by `validated.timeout =
validated.timeout || DEFAULT_TIMEOUT` (UHRBase.js:197) and validation
succeeds: an explicit timeout of 0 milliseconds is never honored. -/
theorem validateRequest_falsy_timeout_defaulted
    (stringify : JSVal → String) (p : JSVal) (url scheme m : String)
    (auth : AuthorityRec)
    (hp : truthy p = true) (hto : typeofStr p = "object")
    (hurl : getField p "url" = .str url)
    (hs : (parseURI url).scheme = some scheme)
    (hhttp : lowerStr scheme = "http" ∨ lowerStr scheme = "https")
    (ha : (parseURI url).authority = some auth) (hhost : auth.host ≠ "")
    (hm : getField p "method" = .str m)
    (hmm : methodInMETHODS m = true)
    (ht : truthy (getField p "timeout") = false) :
    ∃ v, validateRequest stringify p = .ok v ∧
      v.timeout = .number (.int 30000) := by
  unfold validateRequest
  rw [if_neg (by simp [hp, hto])]
  simp only [hurl, hs, ha, hm, hmm, ht]
  rw [if_neg (not_not_intro hhttp), if_neg hhost]
  simp only [not_true, if_false, if_true, ite_true, ite_false,
    Bool.false_eq_true, typeofStr, ne_eq, not_not]
  cases hgd : getField p "data" with
  | obj props =>
      by_cases hup : isUpstreamRequest m = true <;>
        simp only [hup, Bool.false_eq_true, if_true, if_false, ite_true,
          ite_false] <;>
        exact ⟨_, rfl, rfl⟩
  | undefined => exact ⟨_, rfl, rfl⟩
  | null => exact ⟨_, rfl, rfl⟩
  | boolean b => exact ⟨_, rfl, rfl⟩
  | number n => exact ⟨_, rfl, rfl⟩
  | str s => exact ⟨_, rfl, rfl⟩

/-- C10 witness: an explicit timeout of 0 is replaced by 30000 and the
request validates. -/
theorem validateRequest_falsy_timeout_defaulted_witness :
    ∃ v, validateRequest (fun _ => "")
        (.obj [("url", .str "http://localhost:80/page"),
               ("method", .str "GET"),
               ("timeout", .number (.int 0))]) = .ok v ∧
      v.timeout = .number (.int 30000) :=
  validateRequest_falsy_timeout_defaulted (fun _ => "") _
    "http://localhost:80/page" "http" "GET" ⟨none, "localhost", some "80"⟩
    (by decide) (by decide) (by decide) (by decide) (Or.inl (by decide))
    (by decide) (by decide) (by decide) (by decide) (by decide)

/-- The query mapping of a downstream merge: whenever the data mapping is
non-empty, the merged URI's query holds the fold of JS assignments of the data
entries over the original query values (an absent query starts from the empty
mapping created by `new Query('')`, UHRBase.js:209-211). -/
theorem mergeURIQuery_query (u : URIRec) (props : List (String × JSVal))
    (hne : props ≠ []) :
    (mergeURIQuery u props).query =
      some ⟨props.foldl (fun vs kv => setVal vs kv.1 kv.2) (queryValues u)⟩ := by
  unfold mergeURIQuery queryValues
  have hlen : props.length > 0 := List.length_pos.mpr hne
  cases hq : u.query with
  | none => simp [hq, hlen]
  | some q => simp [hq, hlen]

/-- C7: for a validated downstream request (method not POST/PUT/PATCH) with a
non-empty data mapping, every data entry is merged into the URI's query
values (existing keys overwritten, other existing query values preserved),
the data field is cleared to `null`, and the server transport writes no body
on the wire (UHRBase.js:204-216, UHR.js:72-74). -/
theorem validateRequest_downstream_merges_query_no_body
    (stringify : JSVal → String) (p : JSVal) (url scheme m : String)
    (auth : AuthorityRec) (props : List (String × JSVal))
    (hp : truthy p = true) (hto : typeofStr p = "object")
    (hurl : getField p "url" = .str url)
    (hs : (parseURI url).scheme = some scheme)
    (hhttp : lowerStr scheme = "http" ∨ lowerStr scheme = "https")
    (ha : (parseURI url).authority = some auth) (hhost : auth.host ≠ "")
    (hm : getField p "method" = .str m)
    (hmm : methodInMETHODS m = true)
    (hdown : isUpstreamRequest m = false)
    (htmo : truthy (getField p "timeout") = false ∨
      typeofStr (getField p "timeout") = "number")
    (hd : getField p "data" = .obj props) (hne : props ≠ [])
    (hnd : (props.map Prod.fst).Nodup) :
    ∃ v, validateRequest stringify p = .ok v ∧
      v.data = .null ∧ serverWireBody v = none ∧
      ∃ vs, v.uri.query = some ⟨vs⟩ ∧
        (∀ k w, (k, w) ∈ props → lookupKey vs k = some w) ∧
        (∀ k, k ∉ props.map Prod.fst →
          lookupKey vs k = lookupKey (queryValues (parseURI url)) k) := by
  unfold validateRequest
  rw [if_neg (by simp [hp, hto])]
  simp only [hurl, hs, ha, hm, hmm, hd, hdown]
  rw [if_neg (not_not_intro hhttp), if_neg hhost]
  simp only [not_true, if_false, if_true, ite_true, ite_false,
    Bool.false_eq_true]
  have htpass :
      typeofStr (if truthy (getField p "timeout") = true
        then getField p "timeout" else .number (.int DEFAULT_TIMEOUT)) =
      "number" := by
    rcases htmo with h | h
    · rw [h]
      simp [typeofStr]
    · by_cases hb : truthy (getField p "timeout") = true
      · rw [if_pos hb]
        exact h
      · rw [if_neg hb]
        rfl
  rw [if_neg (not_not_intro htpass)]
  refine ⟨_, rfl, rfl, ?_, ?_⟩
  · simp [serverWireBody, hdown]
  · refine ⟨props.foldl (fun vs kv => setVal vs kv.1 kv.2)
        (queryValues (parseURI url)), ?_, ?_, ?_⟩
    · exact mergeURIQuery_query _ _ hne
    · intro k w hkw
      exact lookupKey_foldl_setVal_mem props _ k w hnd hkw
    · intro k hk
      exact lookupKey_foldl_setVal_not_mem props _ k hk

/-- C7 witness: the repository's own test case — `GET` on
`http://localhost:80/page?some=value` with `data = {param: 'test3', param2:
'test4'}` merges both entries into the query, preserves `some=value`, clears
the data and writes no body. -/
theorem validateRequest_downstream_merges_query_no_body_witness :
    ∃ v, validateRequest (fun _ => "")
        (.obj [("url", .str "http://localhost:80/page?some=value"),
               ("method", .str "GET"),
               ("data", .obj [("param", .str "test3"),
                              ("param2", .str "test4")])]) = .ok v ∧
      v.data = .null ∧ serverWireBody v = none ∧
      ∃ vs, v.uri.query = some ⟨vs⟩ ∧
        (∀ k w, (k, w) ∈ [("param", JSVal.str "test3"),
            ("param2", JSVal.str "test4")] → lookupKey vs k = some w) ∧
        (∀ k, k ∉ ([("param", JSVal.str "test3"),
            ("param2", JSVal.str "test4")].map Prod.fst) →
          lookupKey vs k =
            lookupKey (queryValues
              (parseURI "http://localhost:80/page?some=value")) k) :=
  validateRequest_downstream_merges_query_no_body (fun _ => "") _
    "http://localhost:80/page?some=value" "http" "GET"
    ⟨none, "localhost", some "80"⟩ _
    (by decide) (by decide) (by decide) (by decide) (Or.inl (by decide))
    (by decide) (by decide) (by decide) (by decide) (by decide)
    (Or.inl (by decide)) (by decide) (by decide) (by decide)

/-- Helper for the distinctness of validation error messages: the
unsupported-scheme message always ends in the letter `d`, so it differs from
any message whose last character is not `d`, whatever the scheme is. -/
theorem unsupportedScheme_msg_ne (s t : String)
    (h : t.data.getLast? ≠ some 'd') :
    errMessage (.unsupportedScheme s) ≠ t := by
  intro he
  apply h
  rw [← he]
  show ((("\"" ++ s) ++ "\" protocol (scheme) is unsupported").data).getLast? =
    some 'd'
  rw [String.data_append,
    List.getLast?_append_of_ne_nil _ (by decide :
      ("\" protocol (scheme) is unsupported").data ≠ [])]
  decide

/-- C5: validation runs its seven checks in a fixed order and fails before
any transport activity with a distinct message per condition: (1) a
non-string `url` yields the URL-required error regardless of every other
field (in particular when both url and method are missing); (2) once all four
URL checks pass, an invalid method yields the method error regardless of the
timeout; (3) the error message determines the failed condition — the seven
messages are pairwise distinct, whatever the scheme; (4) each of the seven
conditions is reachable at a concrete input. -/
theorem validateRequest_check_order_and_distinct_errors :
    (∀ (stringify : JSVal → String) (p : JSVal),
      truthy p = true → typeofStr p = "object" →
      typeofStr (getField p "url") ≠ "string" →
      validateRequest stringify p = .error .urlRequired) ∧
    (∀ (stringify : JSVal → String) (p : JSVal) (url scheme : String)
        (auth : AuthorityRec),
      truthy p = true → typeofStr p = "object" →
      getField p "url" = .str url →
      (parseURI url).scheme = some scheme →
      (lowerStr scheme = "http" ∨ lowerStr scheme = "https") →
      (parseURI url).authority = some auth → auth.host ≠ "" →
      (∀ m : String, getField p "method" = .str m →
        methodInMETHODS m = false) →
      validateRequest stringify p = .error .methodRequired) ∧
    (∀ e₁ e₂ : VErr, errMessage e₁ = errMessage e₂ → e₁ = e₂) ∧
    (validateRequest (fun _ => "") (.str "http://localhost:80/page") =
        .error .paramsNotObject ∧
     validateRequest (fun _ => "") (.obj [("method", .str "GET")]) =
        .error .urlRequired ∧
     validateRequest (fun _ => "") (.obj [("url", .str "//localhost:80/page")]) =
        .error .noProtocol ∧
     validateRequest (fun _ => "")
        (.obj [("url", .str "file://localhost:80/page"),
               ("method", .str "GET")]) = .error (.unsupportedScheme "file") ∧
     validateRequest (fun _ => "") (.obj [("url", .str "http:///page")]) =
        .error .noHost ∧
     validateRequest (fun _ => "") (.obj [("url", .str "http://localhost:80/page")]) =
        .error .methodRequired ∧
     validateRequest (fun _ => "")
        (.obj [("url", .str "http://localhost:80/page"),
               ("method", .str "GET"), ("timeout", .str "wrong")]) =
        .error .timeoutNotNumber) := by
  refine ⟨?_, ?_, ?_, ?_⟩
  · intro st p hp hto hurl
    unfold validateRequest
    rw [if_neg (by simp [hp, hto])]
    cases hu : getField p "url" with
    | str s => rw [hu] at hurl; exact absurd rfl hurl
    | undefined => simp [hu]
    | null => simp [hu]
    | boolean b => simp [hu]
    | number n => simp [hu]
    | obj props => simp [hu]
  · intro st p url scheme auth hp hto hurl hs hhttp ha hhost hmeth
    unfold validateRequest
    rw [if_neg (by simp [hp, hto])]
    simp only [hurl, hs, ha]
    rw [if_neg (not_not_intro hhttp), if_neg hhost]
    cases hu : getField p "method" with
    | str m =>
        have := hmeth m hu
        simp [this]
    | undefined => simp
    | null => simp
    | boolean b => simp
    | number n => simp
    | obj props => simp
  · intro e₁ e₂ h
    cases e₁ <;> cases e₂ <;>
      first
        | rfl
        | exact absurd h (by decide)
        | exact absurd h (unsupportedScheme_msg_ne _ _ (by decide))
        | exact absurd h.symm (unsupportedScheme_msg_ne _ _ (by decide))
        | (congr 1
           simp only [errMessage] at h
           have hd := congrArg String.data h
           simp only [String.data_append] at hd
           exact String.ext (List.append_right_injective "\"".data
             (List.append_left_injective
               ("\" protocol (scheme) is unsupported").data hd)))
  · exact ⟨by decide, by decide, by decide, by decide, by decide, by decide,
      by decide⟩

/-- C5 witness: the order facts applied at concrete inputs — a parameters
object missing both url and method is rejected with the URL error, and a
parameters object with a valid URL, an invalid method and an invalid timeout
is rejected with the method error. -/
theorem validateRequest_check_order_witness :
    validateRequest (fun _ => "") (.obj [("timeout", .str "wrong")]) =
      .error .urlRequired ∧
    validateRequest (fun _ => "")
        (.obj [("url", .str "http://localhost:80/page"),
               ("method", .str "wrong"), ("timeout", .str "wrong")]) =
      .error .methodRequired :=
  ⟨validateRequest_check_order_and_distinct_errors.1 (fun _ => "") _
      (by decide) (by decide) (by decide),
   validateRequest_check_order_and_distinct_errors.2.1 (fun _ => "") _
      "http://localhost:80/page" "http" ⟨none, "localhost", some "80"⟩
      (by decide) (by decide) (by decide) (by decide) (Or.inl (by decide))
      (by decide) (by decide)
      (by
        intro m hm
        simp only [getField, List.find?] at hm
        cases hm
        decide)⟩

/-! ## Heap model for the copy-on-write (frame) claim

`_normalizeOptions` and `_validateRequest` derive a fresh parameters object
with `Object.create(parameters)` and write only to freshly created objects.
To state that the caller's objects are never mutated, this section embeds the
two functions over an explicit heap: objects live at numeric addresses, a
property write mutates the object at one address, and `Object.create` links a
fresh object to its prototype.  Reads (`validated.url`, `validated.method`,
…) walk the prototype chain.  The externally computed sub-values (the parsed
URI, the merged header mapping, the encoded body) are computed by the pure
functions of this file and stored into the fresh objects; in the source they
are likewise values freshly created inside the call (`new URI(...)`, the
`headers` literal of `createHeaders`) whose in-place updates never touch a
caller object. -/

/-- Heap values: the primitives, references to heap objects, and the parsed
URI object created by `new URI(url)` (held as a value since it is created
fresh inside the call and never aliases caller data). -/
inductive HVal where
  | undefined
  | null
  | boolean (b : Bool)
  | number (n : JSNum)
  | str (s : String)
  | ref (a : Nat)
  | uriV (u : URIRec)
deriving DecidableEq, Repr

/-- A heap object: own properties in insertion order, and an optional
prototype link (as created by `Object.create`). -/
structure HObj where
  props : List (String × HVal)
  proto : Option Nat
deriving DecidableEq, Repr

/-- The heap: objects addressed by their position; allocation appends. -/
structure Store where
  objs : List HObj
deriving DecidableEq, Repr

/-- The object at an address, if allocated. -/
def Store.lookupObj (σ : Store) (a : Nat) : Option HObj :=
  σ.objs[a]?

/-- Allocate a fresh object, returning its (fresh) address. -/
def Store.alloc (σ : Store) (o : HObj) : Nat × Store :=
  (σ.objs.length, ⟨σ.objs ++ [o]⟩)

/-- JS property assignment `o[k] = v` on the object at address `a` (a no-op
on an unallocated address). -/
def Store.writeProp (σ : Store) (a : Nat) (k : String) (v : HVal) : Store :=
  match σ.objs.get? a with
  | some o => ⟨σ.objs.set a ⟨setVal o.props k v, o.proto⟩⟩
  | none => σ

/-- Replace the whole own-property list of the object at address `a`; used
to model the in-place updates `_getDataToSend` performs on the headers object
freshly created by `createHeaders`. -/
def Store.setObjProps (σ : Store) (a : Nat) (props : List (String × HVal)) :
    Store :=
  match σ.objs.get? a with
  | some o => ⟨σ.objs.set a ⟨props, o.proto⟩⟩
  | none => σ

/-- Property read along the prototype chain, fuel-bounded (a JS prototype
chain is acyclic; the fuel only guarantees totality). -/
def getPropAux (σ : Store) : Nat → Nat → String → HVal
  | 0, _, _ => .undefined
  | fuel + 1, a, k =>
      match σ.lookupObj a with
      | none => .undefined
      | some o =>
          match lookupKey o.props k with
          | some v => v
          | none =>
              match o.proto with
              | some pa => getPropAux σ fuel pa k
              | none => .undefined

/-- JS property read `o[k]` (own properties, then the prototype chain). -/
def Store.getProp (σ : Store) (a : Nat) (k : String) : HVal :=
  getPropAux σ (σ.objs.length + 1) a k

/-- JS truthiness of a heap value (objects are always truthy). -/
def truthyH : HVal → Bool
  | .undefined => false
  | .null => false
  | .boolean b => b
  | .number .nan => false
  | .number (.int i) => i ≠ 0
  | .str s => s ≠ ""
  | .ref _ => true
  | .uriV _ => true

/-- JS `typeof` of a heap value. -/
def typeofH : HVal → String
  | .undefined => "undefined"
  | .null => "object"
  | .boolean _ => "boolean"
  | .number _ => "number"
  | .str _ => "string"
  | .ref _ => "object"
  | .uriV _ => "object"

/-- JS string coercion of a heap value. -/
def hToString : HVal → String
  | .undefined => "undefined"
  | .null => "null"
  | .boolean true => "true"
  | .boolean false => "false"
  | .number .nan => "NaN"
  | .number (.int i) => toString i
  | .str s => s
  | .ref _ => "[object Object]"
  | .uriV _ => "[object Object]"

/-- View of a heap value as a plain JS value for the query merge (references
are opaque here: the frame theorem does not depend on the merged content). -/
def hToJs : HVal → JSVal
  | .undefined => .undefined
  | .null => .null
  | .boolean b => .boolean b
  | .number n => .number n
  | .str s => .str s
  | .ref _ => .obj []
  | .uriV _ => .obj []

/-- The default general headers, at the heap-value level (UHRBase.js:41-46). -/
def DEFAULT_GENERAL_HEADERS_H : List (String × HVal) :=
  [("Accept",
    .str "application/json; q=0.7, text/html; q=0.2, text/plain; q=0.1"),
   ("Accept-Charset", .str "UTF-8; q=1")]

/-- The caller-header overlay loop body of `createHeaders`
(UHRBase.js:287-295), at the heap-value level. -/
def hdrStepH (hs : List (String × HVal)) (kv : String × HVal) :
    List (String × HVal) :=
  if kv.2 = .null ∨ kv.2 = .undefined then removeKey hs kv.1
  else setVal hs kv.1 kv.2

/-- The own-property list of the fresh headers object built by
`createHeaders` (UHRBase.js:275-298): the source reads the caller's headers
object and writes only the freshly created object, so its final content is
this pure fold. -/
def createHeadersProps (ph : List (String × HVal)) : List (String × HVal) :=
  ph.foldl hdrStepH DEFAULT_GENERAL_HEADERS_H

/-- `_findContentType` (UHRBase.js:388-407) at the heap-value level. -/
def findContentTypeH (headers : List (String × HVal)) : String × String :=
  let found := headers.foldl
    (fun acc kv =>
      if lowerStr kv.1 = "content-type" then (kv.1, hToString kv.2) else acc)
    ("Content-Type", "")
  (found.1, lowerStr ((jsSplitOn found.2 ";").headD ""))

/-- `_getDataToSend` for non-object (or falsy) data (UHRBase.js:238-247):
the body is the string form of the data (empty when falsy), and the
plain-text content type is defaulted into the headers object when none is
set.  Returns the final own properties of the headers object and the body. -/
def getDataPrimitiveH (headers : List (String × HVal)) (d : HVal) :
    List (String × HVal) × HVal :=
  let found := findContentTypeH headers
  let dataStr := if truthyH d then hToString d else ""
  let headers' :=
    if found.2 = "" then
      setVal headers found.1 (.str PLAIN_TEXT_ENTITY_CONTENT_TYPE)
    else headers
  (headers', .str dataStr)

/-- `_getDataToSend` for object data (UHRBase.js:249-268): JSON-serialized
when the content type resolves to `application/json` (`stringified` is the
externally computed `JSON.stringify(data)`), otherwise form-url-encoded with
the content type forced and the global `+`→`%2B`, `%20`→`+` post-processing.
Returns the final own properties of the headers object and the body. -/
def getDataObjectH (stringified : String) (headers : List (String × HVal))
    (dprops : List (String × HVal)) : List (String × HVal) × HVal :=
  let found := findContentTypeH headers
  if found.2 = TYPES_JSON then (headers, .str stringified)
  else
    let headers' :=
      setVal headers found.1 (.str URL_ENCODED_ENTITY_CONTENT_TYPE)
    let body :=
      jsReplaceAll
        (jsReplaceAll
          (queryToString (dprops.map (fun kv => (kv.1, hToString kv.2))))
          "+" "%2B")
        "%20" "+"
    (headers', .str body)

/-- Store-level embedding of `_normalizeOptions` (UHRBase.js:375-381):
`parameters = parameters || {}` (a falsy caller argument becomes a fresh
empty object), then `Object.create(parameters)` allocates the fresh derived
object, and `method`/`url` are written onto that fresh object only. -/
def normalizeOptionsS (σ : Store) (method url : String) (parameters : HVal) :
    Nat × Store :=
  match parameters with
  | .ref a =>
      let (n, σ₁) := σ.alloc ⟨[], some a⟩
      let σ₂ := σ₁.writeProp n "method" (.str method)
      let σ₃ := σ₂.writeProp n "url" (.str url)
      (n, σ₃)
  | _ =>
      let (pa, σ₀) := σ.alloc ⟨[], none⟩
      let (n, σ₁) := σ₀.alloc ⟨[], some pa⟩
      let σ₂ := σ₁.writeProp n "method" (.str method)
      let σ₃ := σ₂.writeProp n "url" (.str url)
      (n, σ₃)

/-- Store-level `_validateRequest`, stage 5 (UHRBase.js:204-221): the
data/query handling.  A downstream request with object data merges the data
props into the fresh `uri` value and clears `data`; an upstream or
non-object-data request encodes the body, updating the fresh headers object
at `hAddr` in place and re-assigning `headers`/`data` on the fresh validated
object at `n`.  `stringifyS` is the external `JSON.stringify` reading the
heap. -/
def dataStageS (stringifyS : Store → Nat → String) (σ₅ : Store)
    (n hAddr : Nat) (uri : URIRec) (hs : List (String × HVal)) (m : String) :
    Store × Except VErr Nat :=
  match σ₅.getProp n "data" with
  | .ref da =>
      let dprops :=
        match σ₅.lookupObj da with
        | some o => o.props
        | none => []
      if ¬ isUpstreamRequest m then
        let σ₆ := σ₅.writeProp n "uri"
          (.uriV (mergeURIQuery uri (dprops.map (fun kv => (kv.1, hToJs kv.2)))))
        let σ₇ := σ₆.writeProp n "data" .null
        (σ₇, .ok n)
      else
        let dh := getDataObjectH (stringifyS σ₅ da) hs dprops
        let σ₆ := σ₅.setObjProps hAddr dh.1
        let σ₇ := σ₆.writeProp n "data" dh.2
        (σ₇, .ok n)
  | .uriV _u =>
      if ¬ isUpstreamRequest m then
        let σ₆ := σ₅.writeProp n "uri" (.uriV (mergeURIQuery uri []))
        let σ₇ := σ₆.writeProp n "data" .null
        (σ₇, .ok n)
      else
        let dh := getDataObjectH (stringifyS σ₅ n) hs []
        let σ₆ := σ₅.setObjProps hAddr dh.1
        let σ₇ := σ₆.writeProp n "data" dh.2
        (σ₇, .ok n)
  | d =>
      let dh := getDataPrimitiveH hs d
      let σ₆ := σ₅.setObjProps hAddr dh.1
      let σ₇ := σ₆.writeProp n "data" dh.2
      (σ₇, .ok n)

/-- Store-level `_validateRequest`, stage 4 (UHRBase.js:202): read the
caller's headers object through the prototype chain, build the merged header
props, allocate the fresh headers object `createHeaders` creates, and assign
it to `validated.headers`. -/
def headersStageS (stringifyS : Store → Nat → String) (σ₃ : Store) (n : Nat)
    (uri : URIRec) (m : String) : Store × Except VErr Nat :=
  let callerHdrs :=
    match σ₃.getProp n "headers" with
    | .ref ha =>
        match σ₃.lookupObj ha with
        | some o => o.props
        | none => []
    | _ => []
  let hs := createHeadersProps callerHdrs
  let (hAddr, σ₄) := σ₃.alloc ⟨hs, none⟩
  let σ₅ := σ₄.writeProp n "headers" (.ref hAddr)
  dataStageS stringifyS σ₅ n hAddr uri hs m

/-- Store-level `_validateRequest`, stage 3 (UHRBase.js:192-200): the method
check, then the timeout defaulting write and its type check. -/
def methodTimeoutStageS (stringifyS : Store → Nat → String) (σ₂ : Store)
    (n : Nat) (uri : URIRec) : Store × Except VErr Nat :=
  match σ₂.getProp n "method" with
  | .str m =>
      if ¬ methodInMETHODS m then (σ₂, .error .methodRequired)
      else
        let t₀ := σ₂.getProp n "timeout"
        let t := if truthyH t₀ then t₀ else .number (.int DEFAULT_TIMEOUT)
        let σ₃ := σ₂.writeProp n "timeout" t
        if typeofH t ≠ "number" then (σ₃, .error .timeoutNotNumber)
        else headersStageS stringifyS σ₃ n uri m
  | _ => (σ₂, .error .methodRequired)

/-- Store-level `_validateRequest`, stage 2 (UHRBase.js:183-191): the scheme
and host checks on the freshly parsed URI. -/
def uriChecksStageS (stringifyS : Store → Nat → String) (σ₂ : Store) (n : Nat)
    (uri : URIRec) : Store × Except VErr Nat :=
  match uri.scheme with
  | none => (σ₂, .error .noProtocol)
  | some scheme =>
      if ¬ (lowerStr scheme = "http" ∨ lowerStr scheme = "https") then
        (σ₂, .error (.unsupportedScheme scheme))
      else
        match uri.authority with
        | none => (σ₂, .error .noHost)
        | some auth =>
            if auth.host = "" then (σ₂, .error .noHost)
            else methodTimeoutStageS stringifyS σ₂ n uri

/-- Store-level embedding of `_validateRequest` (UHRBase.js:171-224) for a
parameters object at address `p`: `validated = Object.create(parameters)`
allocates the fresh object at `n`; the url is read through the prototype
chain and checked; `validated.uri = new URI(validated.url)` writes the fresh
parsed URI; then the staged checks and data handling above run.  Every heap
write of every stage targets the fresh validated object or the fresh headers
object. -/
def validateRequestS (stringifyS : Store → Nat → String) (σ : Store)
    (p : Nat) : Store × Except VErr Nat :=
  let (n, σ₁) := σ.alloc ⟨[], some p⟩
  match σ₁.getProp n "url" with
  | .str url =>
      let uri := parseURI url
      let σ₂ := σ₁.writeProp n "uri" (.uriV uri)
      uriChecksStageS stringifyS σ₂ n uri
  | _ => (σ₁, .error .urlRequired)

/-! ## Frame lemmas for the heap model -/

theorem Store.lookupObj_alloc (σ : Store) (o : HObj) (a : Nat)
    (h : a < σ.objs.length) :
    ((σ.alloc o).2).lookupObj a = σ.lookupObj a := by
  simp only [Store.alloc, Store.lookupObj]
  exact List.getElem?_append_left h

theorem Store.length_alloc (σ : Store) (o : HObj) :
    ((σ.alloc o).2).objs.length = σ.objs.length + 1 := by
  simp [Store.alloc]

theorem Store.lookupObj_writeProp (σ : Store) (b : Nat) (k : String)
    (v : HVal) (a : Nat) (h : a ≠ b) :
    (σ.writeProp b k v).lookupObj a = σ.lookupObj a := by
  unfold Store.writeProp
  cases hb : σ.objs.get? b with
  | none => rfl
  | some o =>
      simp only [Store.lookupObj]
      exact List.getElem?_set_ne (Ne.symm h)

theorem Store.length_writeProp (σ : Store) (b : Nat) (k : String) (v : HVal) :
    (σ.writeProp b k v).objs.length = σ.objs.length := by
  unfold Store.writeProp
  cases hb : σ.objs.get? b <;> simp

theorem Store.lookupObj_setObjProps (σ : Store) (b : Nat)
    (props : List (String × HVal)) (a : Nat) (h : a ≠ b) :
    (σ.setObjProps b props).lookupObj a = σ.lookupObj a := by
  unfold Store.setObjProps
  cases hb : σ.objs.get? b with
  | none => rfl
  | some o =>
      simp only [Store.lookupObj]
      exact List.getElem?_set_ne (Ne.symm h)

theorem Store.length_setObjProps (σ : Store) (b : Nat)
    (props : List (String × HVal)) :
    (σ.setObjProps b props).objs.length = σ.objs.length := by
  unfold Store.setObjProps
  cases hb : σ.objs.get? b <;> simp

/-- The heap `σ'` preserves `σ`: it is at least as large and every address
allocated in `σ` still holds the same object. -/
def Preserves (σ σ' : Store) : Prop :=
  σ.objs.length ≤ σ'.objs.length ∧
    ∀ a, a < σ.objs.length → σ'.lookupObj a = σ.lookupObj a

theorem Preserves.refl (σ : Store) : Preserves σ σ :=
  ⟨le_refl _, fun _ _ => rfl⟩

theorem Preserves.alloc {σ σ' : Store} (h : Preserves σ σ') (o : HObj) :
    Preserves σ ((σ'.alloc o).2) :=
  ⟨by have := h.1; rw [Store.length_alloc]; omega,
   fun a ha => by
     rw [Store.lookupObj_alloc _ _ _ (lt_of_lt_of_le ha h.1)]
     exact h.2 a ha⟩

theorem Preserves.writeProp {σ σ' : Store} (h : Preserves σ σ') {b : Nat}
    (hb : σ.objs.length ≤ b) (k : String) (v : HVal) :
    Preserves σ (σ'.writeProp b k v) :=
  ⟨by rw [Store.length_writeProp]; exact h.1,
   fun a ha => by
     rw [Store.lookupObj_writeProp _ _ _ _ _ (by omega)]
     exact h.2 a ha⟩

theorem Preserves.setObjProps {σ σ' : Store} (h : Preserves σ σ') {b : Nat}
    (hb : σ.objs.length ≤ b) (props : List (String × HVal)) :
    Preserves σ (σ'.setObjProps b props) :=
  ⟨by rw [Store.length_setObjProps]; exact h.1,
   fun a ha => by
     rw [Store.lookupObj_setObjProps _ _ _ _ (by omega)]
     exact h.2 a ha⟩

/-- Stage 5 preserves every pre-existing object: its writes target only the
fresh validated object `n` and the fresh headers object `hAddr`. -/
theorem dataStageS_preserves (stringifyS : Store → Nat → String) (σ : Store)
    (σ₅ : Store) (n hAddr : Nat) (uri : URIRec) (hs : List (String × HVal))
    (m : String) (h : Preserves σ σ₅) (hn : σ.objs.length ≤ n)
    (hh : σ.objs.length ≤ hAddr) :
    Preserves σ (dataStageS stringifyS σ₅ n hAddr uri hs m).1 := by
  unfold dataStageS
  dsimp only
  repeat' split
  all_goals
    first
      | exact ((h.writeProp hn _ _).writeProp hn _ _)
      | exact ((h.setObjProps hh _).writeProp hn _ _)

/-- Stage 4 preserves every pre-existing object: it allocates the fresh
headers object and writes only to it and to the fresh validated object. -/
theorem headersStageS_preserves (stringifyS : Store → Nat → String)
    (σ : Store) (σ₃ : Store) (n : Nat) (uri : URIRec) (m : String)
    (h : Preserves σ σ₃) (hn : σ.objs.length ≤ n) :
    Preserves σ (headersStageS stringifyS σ₃ n uri m).1 := by
  unfold headersStageS
  simp only [Store.alloc]
  exact dataStageS_preserves stringifyS σ _ n _ uri _ m
    ((h.alloc _).writeProp hn _ _) hn h.1

/-- Stage 3 preserves every pre-existing object. -/
theorem methodTimeoutStageS_preserves (stringifyS : Store → Nat → String)
    (σ : Store) (σ₂ : Store) (n : Nat) (uri : URIRec)
    (h : Preserves σ σ₂) (hn : σ.objs.length ≤ n) :
    Preserves σ (methodTimeoutStageS stringifyS σ₂ n uri).1 := by
  unfold methodTimeoutStageS
  dsimp only
  repeat' split
  all_goals
    first
      | exact h
      | exact h.writeProp hn _ _
      | exact headersStageS_preserves stringifyS σ _ n uri _
          (h.writeProp hn _ _) hn

/-- Stage 2 preserves every pre-existing object. -/
theorem uriChecksStageS_preserves (stringifyS : Store → Nat → String)
    (σ : Store) (σ₂ : Store) (n : Nat) (uri : URIRec)
    (h : Preserves σ σ₂) (hn : σ.objs.length ≤ n) :
    Preserves σ (uriChecksStageS stringifyS σ₂ n uri).1 := by
  unfold uriChecksStageS
  repeat' split
  all_goals
    first
      | exact h
      | exact methodTimeoutStageS_preserves stringifyS σ σ₂ n uri h hn

/-- Every write of the store-level `_validateRequest` targets the freshly
created validated object or the freshly created headers object, so the whole
run preserves every pre-existing heap object. -/
theorem validateRequestS_preserves (stringifyS : Store → Nat → String)
    (σ : Store) (p : Nat) :
    Preserves σ (validateRequestS stringifyS σ p).1 := by
  unfold validateRequestS
  simp only [Store.alloc]
  split
  · exact uriChecksStageS_preserves stringifyS σ _ σ.objs.length _
      (((Preserves.refl σ).alloc _).writeProp (le_refl _) _ _) (le_refl _)
  · exact (Preserves.refl σ).alloc _

/-- The store-level `_normalizeOptions` writes only to its fresh object. -/
theorem normalizeOptionsS_preserves (σ : Store) (method url : String)
    (pv : HVal) :
    Preserves σ (normalizeOptionsS σ method url pv).2 := by
  unfold normalizeOptionsS
  cases pv <;> simp only [Store.alloc] <;>
    first
      | exact (((Preserves.refl σ).alloc _).writeProp (le_refl _) _ _).writeProp
          (le_refl _) _ _
      | exact ((((Preserves.refl σ).alloc _).alloc _).writeProp
            (by simp only [Store.alloc, List.length_append, List.length_cons,
              List.length_nil]; omega) _ _).writeProp
          (by simp only [Store.alloc, List.length_append, List.length_cons,
            List.length_nil]; omega) _ _

/-- C9: the caller-supplied parameters object and its nested headers and data
objects are left unchanged by a call: both `_normalizeOptions`
(method/url injection) and `_validateRequest` (uri derivation, timeout
defaulting, header merging, query merge and body encoding) write only to the
freshly derived validated object and the freshly created headers object, so
every heap address allocated before the call still holds the same object
afterwards. -/
theorem normalizeValidate_leave_caller_objects_unchanged
    (stringifyS : Store → Nat → String) (σ : Store) (p : Nat)
    (method url : String) (pv : HVal) (a : Nat)
    (ha : a < σ.objs.length) :
    ((normalizeOptionsS σ method url pv).2).lookupObj a = σ.lookupObj a ∧
    ((validateRequestS stringifyS σ p).1).lookupObj a = σ.lookupObj a :=
  ⟨(normalizeOptionsS_preserves σ method url pv).2 a ha,
   (validateRequestS_preserves stringifyS σ p).2 a ha⟩

/-- C9 witness: a concrete heap holding the caller's parameters object (with
nested headers and data objects); the caller's object is unchanged by both
calls. -/
theorem normalizeValidate_leave_caller_objects_unchanged_witness :
    ((normalizeOptionsS
        ⟨[⟨[("url", .str "http://localhost:80/page"), ("method", .str "GET"),
            ("headers", .ref 1), ("data", .ref 2)], none⟩,
          ⟨[("Accept-Charset", HVal.null)], none⟩,
          ⟨[("param", .str "test")], none⟩]⟩
        "GET" "http://localhost:80/page" (.ref 0)).2).lookupObj 0 =
      (⟨[⟨[("url", .str "http://localhost:80/page"), ("method", .str "GET"),
            ("headers", .ref 1), ("data", .ref 2)], none⟩,
          ⟨[("Accept-Charset", HVal.null)], none⟩,
          ⟨[("param", .str "test")], none⟩]⟩ : Store).lookupObj 0 ∧
    ((validateRequestS (fun _ _ => "")
        ⟨[⟨[("url", .str "http://localhost:80/page"), ("method", .str "GET"),
            ("headers", .ref 1), ("data", .ref 2)], none⟩,
          ⟨[("Accept-Charset", HVal.null)], none⟩,
          ⟨[("param", .str "test")], none⟩]⟩ 0).1).lookupObj 0 =
      (⟨[⟨[("url", .str "http://localhost:80/page"), ("method", .str "GET"),
            ("headers", .ref 1), ("data", .ref 2)], none⟩,
          ⟨[("Accept-Charset", HVal.null)], none⟩,
          ⟨[("param", .str "test")], none⟩]⟩ : Store).lookupObj 0 :=
  normalizeValidate_leave_caller_objects_unchanged (fun _ _ => "") _ 0 "GET"
    "http://localhost:80/page" (.ref 0) 0 (by decide)

end CatberryUHR